import Mathlib

/-!
Verification development for the cache-operation recording engine of
django-perf-rec / django-performance-recorder.

The embedding follows the Python source:
* `cache.py` — `CacheOp` (operation events, key normalisation via ordered
  regex substitutions), `CacheRecorder` (per-backend monkey patching) and
  `AllCacheRecorder` (multi-backend acquisition/release),
* `api.py` — `record` (session-name de-duplication counter) and
  `PerformanceRecorder.save_or_assert` (snapshot compare/persist).

Regular expressions are embedded as explicit matchers over `List Char`
with Python `re.sub` leftmost, non-overlapping substitution semantics
(look-behinds and word boundaries inspect the original subject string).
-/

namespace DjangoPerfRec

/-- Word characters as used by the `\b` and `\w`-adjacent boundary checks
of the embedded regular expressions (ASCII fragment of Python `\w`). -/
def isWordChar (c : Char) : Bool :=
  c.isAlphanum || c == '_'

/-- Character class `[0-9a-f]` (lowercase hex digit). -/
def isLowerHex (c : Char) : Bool :=
  c.isDigit || (decide ('a' ≤ c) && decide (c ≤ 'f'))

/-- Character class `[0-9a-z]` (digit or lowercase letter). -/
def isLowerAlnum (c : Char) : Bool :=
  c.isDigit || (decide ('a' ≤ c) && decide (c ≤ 'z'))

/-- Test whether the characters of `s` starting at index `i` begin with `p`. -/
def sliceEq (s : List Char) (i : Nat) (p : List Char) : Bool :=
  decide ((s.drop i).take p.length = p)

/-- Test whether `s` has `len` characters starting at `i`, all in class `cls`. -/
def runOfClass (s : List Char) (i len : Nat) (cls : Char → Bool) : Bool :=
  decide (((s.drop i).take len).length = len) && ((s.drop i).take len).all cls

/-- True when there is no word character at index `j` (end of string counts). -/
def noWordAt (s : List Char) (j : Nat) : Bool :=
  match s.get? j with
  | some c => !isWordChar c
  | none => true

/-- Test whether the character at index `j` is exactly `c`. -/
def charAtIs (s : List Char) (j : Nat) (c : Char) : Bool :=
  match s.get? j with
  | some d => d == c
  | none => false

/-- A matcher reports the length of a regex match starting at a position of
the subject string, or `none` when the pattern does not match there. -/
def Matcher : Type := List Char → Nat → Option Nat

/-- Literal look-behind text of the session-key rule for the cache backend:
`django.contrib.sessions.cache`. -/
def sessCachePat : List Char := "django.contrib.sessions.cache".data

/-- Literal look-behind text of the session-key rule for the cached_db
backend: `django.contrib.sessions.cached_db`. -/
def sessCachedDbPat : List Char := "django.contrib.sessions.cached_db".data

/-- Matcher for `(?<=P)[0-9a-z]{32}\b` with look-behind text `p`. -/
def lookbehindHexMatch (p : List Char) : Matcher := fun s i =>
  if decide (p.length ≤ i) && sliceEq s (i - p.length) p
      && runOfClass s i 32 isLowerAlnum && noWordAt s (i + 32)
  then some 32 else none

/-- Matcher for `\b[0-9a-f]{32}\b` (long random hashes). -/
def hexHashMatch : Matcher := fun s i =>
  if (decide (i = 0) || noWordAt s (i - 1))
      && runOfClass s i 32 isLowerHex && noWordAt s (i + 32)
  then some 32 else none

/-- Matcher for the canonical UUID pattern
`[0-9a-f]{8}-[0-9a-f]{4}-[0-9a-f]{4}-[0-9a-f]{4}-[0-9a-f]{12}`. -/
def uuidMatch : Matcher := fun s i =>
  if runOfClass s i 8 isLowerHex && charAtIs s (i + 8) '-'
      && runOfClass s (i + 9) 4 isLowerHex && charAtIs s (i + 13) '-'
      && runOfClass s (i + 14) 4 isLowerHex && charAtIs s (i + 18) '-'
      && runOfClass s (i + 19) 4 isLowerHex && charAtIs s (i + 23) '-'
      && runOfClass s (i + 24) 12 isLowerHex
  then some 36 else none

/-- Matcher for `\d+` (maximal run of decimal digits, greedy). -/
def digitsMatch : Matcher := fun s i =>
  match ((s.drop i).takeWhile Char.isDigit).length with
  | 0 => none
  | n + 1 => some (n + 1)

/-- Leftmost non-overlapping substitution: scan the subject string from the
left; at each position either splice the single replacement character for a
match and resume after it, or copy the character. Look-behinds and
boundaries inside `m` inspect the original string `s`, as in Python `re`. -/
def substAux (m : Matcher) (s : List Char) : Nat → Nat → List Char
  | _, 0 => []
  | i, fuel + 1 =>
    match s.get? i with
    | none => []
    | some c =>
      match m s i with
      | some (l + 1) => '#' :: substAux m s (i + l + 1) fuel
      | _ => c :: substAux m s (i + 1) fuel

/-- Replace every match of `m` in `s` with `#`, as `re.sub` does. -/
def subst (m : Matcher) (s : List Char) : List Char :=
  substAux m s 0 s.length

/-- Ordered rule list `CacheOp.VARIABLE_RES`: the two session-key rules,
long hashes, UUIDs, then integers. -/
def VARIABLE_RES : List Matcher :=
  [lookbehindHexMatch sessCachePat, lookbehindHexMatch sessCachedDbPat,
   hexHashMatch, uuidMatch, digitsMatch]

/-- Embedding of `CacheOp.clean_key`: apply the ordered substitution rules,
each replacing its matches with a single `#`. -/
def clean_key (key : String) : String :=
  ⟨VARIABLE_RES.foldl (fun s m => subst m s) key.data⟩

example : clean_key "user:12345:profile" = "user:#:profile" := by decide

example : clean_key "sess:550e8400-e29b-41d4-a716-446655440000" = "sess:#" := by
  decide

/-- Python runtime values that can reach the instrumented cache methods as
positional arguments. Strings, lists (any sequence) and dicts (any
mapping) are the supported key shapes; integers and `None` stand for the
unsupported shapes. -/
inductive PyVal where
  | vstr : String → PyVal
  | vlist : List PyVal → PyVal
  | vdict : List (PyVal × PyVal) → PyVal
  | vint : Int → PyVal
  | vnone : PyVal

/-- Python exceptions that the embedded fragment can raise. -/
inductive PyErr where
  | valueError : String → PyErr
  | typeError : PyErr
  | indexError : PyErr
deriving DecidableEq, Repr

/-- Result of `isinstance(x, str)`. -/
def isStr : PyVal → Bool
  | .vstr _ => true
  | _ => false

/-- Result of `isinstance(x, (Mapping, Sequence))`. A Python `str` is
itself a `Sequence`, so it satisfies this check as well. -/
def isMappingOrSequence : PyVal → Bool
  | .vstr _ => true
  | .vlist _ => true
  | .vdict _ => true
  | _ => false

/-- Iteration `for k in key_or_keys`: a string yields its one-character
substrings, a list yields its elements, a dict yields its keys. -/
def iterElems : PyVal → List PyVal
  | .vstr s => s.data.map (fun c => .vstr ⟨[c]⟩)
  | .vlist l => l
  | .vdict l => l.map Prod.fst
  | _ => []

/-- Evaluation of `clean_key(k)` on one iterated element: `re.sub` raises
`TypeError` when its subject is not a string. -/
def cleanElem : PyVal → Except PyErr String
  | .vstr s => .ok (clean_key s)
  | _ => .error .typeError

/-- Consume the generator `(clean_key(k) for k in keys)`, propagating the
first exception. -/
def cleanAll : List PyVal → Except PyErr (List String)
  | [] => .ok []
  | k :: ks =>
    match cleanElem k with
    | .error e => .error e
    | .ok c =>
      match cleanAll ks with
      | .error e => .error e
      | .ok cs => .ok (c :: cs)

/-- Python `sorted` on a list of strings (lexicographic by code point). -/
def pysorted (l : List String) : List String :=
  l.mergeSort (fun a b => decide (a ≤ b))

/-- Normalised key payload of an operation event: a single key or a sorted
list of keys. -/
inductive KeyOrKeys where
  | single : String → KeyOrKeys
  | many : List String → KeyOrKeys
deriving DecidableEq, Repr

/-- Embedding of a constructed `CacheOp` value: backend cache_name, operation
name, and the normalised key or keys. -/
structure CacheOp where
  cache_name : String
  operation : String
  key_or_keys : KeyOrKeys
deriving DecidableEq, Repr

/-- Embedding of `CacheOp.__init__`: the string test comes first, then the
`(Mapping, Sequence)` test, and anything else raises `ValueError`. -/
def CacheOp.init (cache_name operation : String) (key_or_keys : PyVal) :
    Except PyErr CacheOp :=
  if isStr key_or_keys then
    match key_or_keys with
    | .vstr s => .ok ⟨cache_name, operation, .single (clean_key s)⟩
    | _ => .error .typeError
  else if isMappingOrSequence key_or_keys then
    match cleanAll (iterElems key_or_keys) with
    | .ok ks => .ok ⟨cache_name, operation, .many (pysorted ks)⟩
    | .error e => .error e
  else
    .error (.valueError "key_or_keys must be a string, mapping, or sequence")

/-- The nine instrumented operation names (`CacheRecorder.cache_methods`). -/
def cache_methods : List String :=
  ["add", "decr", "delete", "delete_many", "get", "get_many", "incr",
   "set", "set_many"]

/-- Embedding of the instrumented wrapper `inner` produced by
`call_callback`. The original method is a state transformer on the backend
state `σ`; the event log models the recorder callback. The wrapper first
checks for an internal call, then evaluates `args[0]` (raising
`IndexError` when there is no positional argument), builds the `CacheOp`
(which may raise), emits it, and only then delegates to the original
method with the original arguments. On any exception the original method
is never invoked, so the state and log are returned unchanged. -/
def inner {σ : Type} (cache_name fname : String)
    (orig : List PyVal → σ → PyVal × σ)
    (is_internal_call : Bool) (args : List PyVal) (st : σ)
    (log : List CacheOp) : Except PyErr PyVal × σ × List CacheOp :=
  if is_internal_call then
    let (r, st2) := orig args st
    (.ok r, st2, log)
  else
    match args with
    | [] => (.error .indexError, st, log)
    | a0 :: _ =>
      match CacheOp.init cache_name fname a0 with
      | .error e => (.error e, st, log)
      | .ok op =>
        let (r, st2) := orig args st
        (.ok r, st2, log ++ [op])

/-- Method tables of all cache backends: for each backend alias and method
name, the currently installed implementation. The method type `M` is
abstract because restoration does not inspect method values. -/
def Caches (M : Type) : Type := String → String → M

/-- Embedding of `setattr(cache, name, value)` on the method tables. -/
def setMeth {M : Type} (t : Caches M) (a n : String) (v : M) : Caches M :=
  fun a2 n2 => if a2 = a ∧ n2 = n then v else t a2 n2

/-- State of one `CacheRecorder` after `__enter__`: its alias and the
`orig_methods` snapshot taken before patching. -/
structure CacheRecorderS (M : Type) where
  cache_name : String
  orig_methods : String → M

/-- Embedding of `CacheRecorder.__enter__`: snapshot the current bound
method for each of the nine names, then install the wrapped version built
from that snapshot. `wrap` models `MethodType(call_callback(orig), cache)`. -/
def cacheRecorderEnter {M : Type} (wrap : M → M) (t : Caches M)
    (a : String) : CacheRecorderS M × Caches M :=
  (⟨a, fun n => t a n⟩,
   cache_methods.foldl (fun s n => setMeth s a n (wrap (t a n))) t)

/-- Embedding of `CacheRecorder.__exit__`: restore every one of the nine
methods from the recorded `orig_methods`, ignoring the exception info. -/
def cacheRecorderExit {M : Type} (t : Caches M) (r : CacheRecorderS M) :
    Caches M :=
  cache_methods.foldl (fun s n => setMeth s r.cache_name n (r.orig_methods n)) t

/-- Embedding of `AllCacheRecorder.__enter__`: enter a `CacheRecorder` for
each configured backend name in order, collecting the recorders in
acquisition order. -/
def allCacheEnter {M : Type} (wrap : M → M) (t : Caches M) :
    List String → List (CacheRecorderS M) × Caches M
  | [] => ([], t)
  | a :: rest =>
    let (r, t1) := cacheRecorderEnter wrap t a
    let (rs, t2) := allCacheEnter wrap t1 rest
    (r :: rs, t2)

/-- Embedding of `AllCacheRecorder.__exit__`: exit the recorders in
reversed acquisition order; the exception info is passed through but never
examined, so release happens on normal and error exit alike. -/
def allCacheExit {M : Type} (rs : List (CacheRecorderS M))
    (_excInfo : Option String) (t : Caches M) : Caches M :=
  rs.reverse.foldl (fun s r => cacheRecorderExit s r) t

/-- Thread-local deduplication state `record_current` of `api.record`:
the last derived record name, and the counter. Initially neither
attribute exists, modelled by `none` and counter `0`. -/
structure RecordCurrent where
  record_name : Option String
  counter : Nat
deriving DecidableEq, Repr

/-- Embedding of the name-deduplication step of `api.record` (the branch
taken when no explicit `record_name` is passed): when the derived name
equals the remembered one, the counter is incremented and the returned
name gets a `.counter` suffix; otherwise the derived name is remembered,
the counter resets to 1 and the name is returned bare. -/
def recordStep (st : RecordCurrent) (derived : String) :
    String × RecordCurrent :=
  if st.record_name = some derived then
    (derived ++ "." ++ toString (st.counter + 1),
     ⟨st.record_name, st.counter + 1⟩)
  else
    (derived, ⟨some derived, 1⟩)

/-- Run a sequence of `record` calls with derived names `ds`, threading
the thread-local state and collecting the session names in order. -/
def recordRun (st : RecordCurrent) : List String → List String × RecordCurrent
  | [] => ([], st)
  | d :: ds =>
    ((recordStep st d).1 :: (recordRun (recordStep st d).2 ds).1,
     (recordRun (recordStep st d).2 ds).2)

/-- Recording captured by a session: the ordered list of one-key mappings
appended by `PerformanceRecorder.on_cache_op`. -/
def Recording : Type := List (String × KeyOrKeys)

instance : DecidableEq Recording :=
  inferInstanceAs (DecidableEq (List (String × KeyOrKeys)))

/-- Modelled from the spec: the in-memory mapping held by `KVFile`
(`yaml.py`, not among the provided sources) from recording name to
Recording. -/
def KVStore : Type := List (String × Recording)

instance : DecidableEq KVStore :=
  inferInstanceAs (DecidableEq (List (String × Recording)))

/-- Modelled from the spec: `KVFile.get(name, default)` is mapping lookup. -/
def kvget (l : KVStore) (n : String) : Option Recording :=
  match l.find? (fun p => decide (p.1 = n)) with
  | some p => some p.2
  | none => none

/-- Modelled from the spec: the mapping update `data[name] = record`
performed by `KVFile.set_and_save` (replace when present, append when
absent). -/
def kvset (l : KVStore) (n : String) (r : Recording) : KVStore :=
  if (l.find? (fun p => decide (p.1 = n))).isSome then
    l.map (fun p => if p.1 = n then (n, r) else p)
  else
    List.append l [(n, r)]

/-- Rendering of a key payload inside the serialised snapshot file. -/
def renderKeyOrKeys : KeyOrKeys → String
  | .single k => k
  | .many ks => "[" ++ String.intercalate ", " ks ++ "]"

/-- Rendering of one recording as lines of `- name: keys` entries. -/
def renderRecording (r : Recording) : String :=
  String.intercalate "\n"
    (r.map (fun p => "- " ++ p.1 ++ ": " ++ renderKeyOrKeys p.2))

/-- Modelled from the spec: serialisation of the whole store performed by
`KVFile.set_and_save`. Entries are written in a stable order sorted by
recording name, independent of in-memory mapping order, so re-saving an
unchanged mapping produces byte-identical output. -/
def serializeKV (l : KVStore) : String :=
  String.intercalate "\n"
    ((l.mergeSort (fun p q => decide (p.1 ≤ q.1))).map
      (fun p => p.1 ++ ":\n" ++ renderRecording p.2))

/-- Embedding of `PerformanceRecorder.save_or_assert`: look up the stored
recording under the session name; when one exists and differs from the
newly captured recording, the `assert` raises (naming the recording)
before `set_and_save` is reached; otherwise `set_and_save` updates the
store. -/
def save_or_assert (store : KVStore) (record_name : String)
    (record : Recording) : Except String KVStore :=
  match kvget store record_name with
  | some orig =>
    if record = orig then
      .ok (kvset store record_name record)
    else
      .error ("Performance record did not match for " ++ record_name)
  | none => .ok (kvset store record_name record)

/-- Content of the on-disk snapshot file after session close:
`set_and_save` rewrites the file only when no assertion was raised, so on
the error path the previous content survives unchanged. -/
def fileAfter (content : String) : Except String KVStore → String
  | .ok s => serializeKV s
  | .error _ => content

/-! Helper lemmas. -/

lemma cleanAll_map_vstr (l : List String) :
    cleanAll (l.map PyVal.vstr) = .ok (l.map clean_key) := by
  induction l with
  | nil => rfl
  | cons s rest ih => simp [cleanAll, cleanElem, ih]

lemma cleanAll_error_typeError {l : List PyVal} {e : PyErr}
    (h : cleanAll l = .error e) : e = .typeError := by
  induction l with
  | nil => simp [cleanAll] at h
  | cons k ks ih =>
    cases k with
    | vstr s =>
      rw [cleanAll] at h
      simp only [cleanElem] at h
      cases hks : cleanAll ks with
      | error e2 => rw [hks] at h; cases h; exact ih hks
      | ok cs => rw [hks] at h; cases h
    | vlist l2 =>
      rw [cleanAll] at h; simp only [cleanElem] at h; cases h; rfl
    | vdict l2 =>
      rw [cleanAll] at h; simp only [cleanElem] at h; cases h; rfl
    | vint n =>
      rw [cleanAll] at h; simp only [cleanElem] at h; cases h; rfl
    | vnone =>
      rw [cleanAll] at h; simp only [cleanElem] at h; cases h; rfl

lemma cleanAll_ok_of_all_str {l : List PyVal} (h : l.all isStr = true) :
    ∃ ks, cleanAll l = .ok ks := by
  induction l with
  | nil => exact ⟨[], rfl⟩
  | cons k ks ih =>
    rw [List.all_cons, Bool.and_eq_true] at h
    obtain ⟨ks2, hks2⟩ := ih h.2
    cases k with
    | vstr s => exact ⟨clean_key s :: ks2, by rw [cleanAll]; simp [cleanElem, hks2]⟩
    | vlist l2 => simp [isStr] at h
    | vdict l2 => simp [isStr] at h
    | vint n => simp [isStr] at h
    | vnone => simp [isStr] at h

lemma init_vstr (c o s : String) :
    CacheOp.init c o (PyVal.vstr s) = .ok ⟨c, o, .single (clean_key s)⟩ := rfl

lemma init_vlist (c o : String) (l : List PyVal) :
    CacheOp.init c o (PyVal.vlist l)
      = match cleanAll l with
        | .ok ks => .ok ⟨c, o, .many (pysorted ks)⟩
        | .error e => .error e := rfl

lemma init_vdict (c o : String) (l : List (PyVal × PyVal)) :
    CacheOp.init c o (PyVal.vdict l)
      = match cleanAll (l.map Prod.fst) with
        | .ok ks => .ok ⟨c, o, .many (pysorted ks)⟩
        | .error e => .error e := rfl

lemma init_vint (c o : String) (n : Int) :
    CacheOp.init c o (PyVal.vint n)
      = .error (.valueError "key_or_keys must be a string, mapping, or sequence") :=
  rfl

lemma init_vnone (c o : String) :
    CacheOp.init c o PyVal.vnone
      = .error (.valueError "key_or_keys must be a string, mapping, or sequence") :=
  rfl

lemma pysorted_sorted (l : List String) :
    List.Sorted (· ≤ ·) (pysorted l) := by
  have h := @List.sorted_mergeSort String
    (fun a b : String => decide (a ≤ b))
    (fun a b c hab hbc => by
      simp only [decide_eq_true_eq] at *
      exact le_trans hab hbc)
    (fun a b => by
      simpa only [Bool.or_eq_true, decide_eq_true_eq] using le_total a b)
    l
  exact h.imp (fun hab => by simpa using hab)

lemma pysorted_perm_eq {l1 l2 : List String} (h : l1.Perm l2) :
    pysorted l1 = pysorted l2 := by
  haveI : IsAntisymm String (· ≤ ·) := ⟨fun a b h1 h2 => le_antisymm h1 h2⟩
  refine List.eq_of_perm_of_sorted ?_ (pysorted_sorted l1) (pysorted_sorted l2)
  exact ((l1.mergeSort_perm _).trans h).trans (l2.mergeSort_perm _).symm

/-! Claim theorems. -/

/-- C5: for every backend alias, every operation name, and every two key
collections that are permutations of each other, constructing an operation
event from either collection yields equal events, because the normalised
keys are stored sorted lexicographically. -/
theorem C5_bulk_keys_order_independent (cache_name op : String)
    (l1 l2 : List String) (h : l1.Perm l2) :
    CacheOp.init cache_name op (PyVal.vlist (l1.map PyVal.vstr))
      = CacheOp.init cache_name op (PyVal.vlist (l2.map PyVal.vstr)) := by
  have e1 : CacheOp.init cache_name op (PyVal.vlist (l1.map PyVal.vstr))
      = .ok ⟨cache_name, op, .many (pysorted (l1.map clean_key))⟩ := by
    rw [init_vlist, cleanAll_map_vstr]
  have e2 : CacheOp.init cache_name op (PyVal.vlist (l2.map PyVal.vstr))
      = .ok ⟨cache_name, op, .many (pysorted (l2.map clean_key))⟩ := by
    rw [init_vlist, cleanAll_map_vstr]
  rw [e1, e2, pysorted_perm_eq (h.map clean_key)]

/-- Witness for C5 at the spec scenario: bulk keys `["b","a"]` and
`["a","b"]` produce identical operation events. -/
theorem C5_bulk_keys_order_independent_witness :
    CacheOp.init "default" "get_many"
        (PyVal.vlist [PyVal.vstr "b", PyVal.vstr "a"])
      = CacheOp.init "default" "get_many"
        (PyVal.vlist [PyVal.vstr "a", PyVal.vstr "b"]) :=
  C5_bulk_keys_order_independent "default" "get_many" ["b", "a"] ["a", "b"]
    (by decide)

/-- C9: a string key is always treated as one single key, never as a key
collection: although a Python string satisfies the mapping/sequence test,
the string test comes first, so the constructed event stores the
normalised string itself and never a sorted list of one-character
substrings. -/
theorem C9_string_is_single_key (cache_name op s : String) :
    isMappingOrSequence (PyVal.vstr s) = true
      ∧ CacheOp.init cache_name op (PyVal.vstr s)
          = .ok ⟨cache_name, op, .single (clean_key s)⟩
      ∧ ∀ ks : List String,
          CacheOp.init cache_name op (PyVal.vstr s)
            ≠ .ok ⟨cache_name, op, .many ks⟩ := by
  refine ⟨rfl, rfl, ?_⟩
  intro ks h
  rw [show CacheOp.init cache_name op (PyVal.vstr s)
      = .ok ⟨cache_name, op, .single (clean_key s)⟩ from rfl] at h
  simp at h

/-- C10: an external invocation of an instrumented method with zero
positional arguments raises `IndexError` while building the operation
event, before delegating to the original method: the backend state and
the event log are untouched, whatever the original method would have
done with that call. -/
theorem C10_zero_args_index_error {σ : Type} (cache_name fname : String)
    (orig : List PyVal → σ → PyVal × σ) (st : σ) (log : List CacheOp) :
    inner cache_name fname orig false [] st log
      = (.error .indexError, st, log) := rfl

/-- C7: constructing an operation event raises the invalid-argument
`ValueError` exactly when the first positional argument is neither a
string nor a mapping/sequence; when it does, the error surfaces from the
instrumented method with the backend state and event log untouched, so
the underlying cache operation is never performed. -/
theorem C7_invalid_key_shape {σ : Type} (cache_name fname : String)
    (orig : List PyVal → σ → PyVal × σ) (st : σ) (log : List CacheOp)
    (a0 : PyVal) (rest : List PyVal) :
    ((∃ msg, CacheOp.init cache_name fname a0 = .error (.valueError msg))
      ↔ (isStr a0 = false ∧ isMappingOrSequence a0 = false))
    ∧ (∀ msg, CacheOp.init cache_name fname a0 = .error (.valueError msg) →
        inner cache_name fname orig false (a0 :: rest) st log
          = (.error (.valueError msg), st, log)) := by
  constructor
  · constructor
    · rintro ⟨msg, hmsg⟩
      cases a0 with
      | vstr s => rw [init_vstr] at hmsg; cases hmsg
      | vlist l =>
        rw [init_vlist] at hmsg
        cases hc : cleanAll l with
        | error e =>
          rw [hc] at hmsg
          simp only [] at hmsg
          cases hmsg
          exact absurd (cleanAll_error_typeError hc) (by simp)
        | ok ks => rw [hc] at hmsg; cases hmsg
      | vdict l =>
        rw [init_vdict] at hmsg
        cases hc : cleanAll (l.map Prod.fst) with
        | error e =>
          rw [hc] at hmsg
          simp only [] at hmsg
          cases hmsg
          exact absurd (cleanAll_error_typeError hc) (by simp)
        | ok ks => rw [hc] at hmsg; cases hmsg
      | vint n => exact ⟨rfl, rfl⟩
      | vnone => exact ⟨rfl, rfl⟩
    · rintro ⟨h1, h2⟩
      cases a0 with
      | vstr s => simp [isStr] at h1
      | vlist l => simp [isMappingOrSequence] at h2
      | vdict l => simp [isMappingOrSequence] at h2
      | vint n =>
        exact ⟨"key_or_keys must be a string, mapping, or sequence", rfl⟩
      | vnone =>
        exact ⟨"key_or_keys must be a string, mapping, or sequence", rfl⟩
  · intro msg hmsg
    rw [inner]
    simp only [Bool.false_eq_true, ite_false, hmsg]

/-- Witness for C7: constructing an event from the integer key `1` raises
the invalid-argument error, and the instrumented `get` surfaces it with
the state and log unchanged. -/
theorem C7_invalid_key_shape_witness :
    inner "default" "get" (fun _ (st : Nat) => (PyVal.vnone, st + 1)) false
        [PyVal.vint 1] 0 []
      = (.error (.valueError "key_or_keys must be a string, mapping, or sequence"),
         0, []) :=
  (C7_invalid_key_shape "default" "get"
      (fun _ (st : Nat) => (PyVal.vnone, st + 1)) 0 [] (PyVal.vint 1) []).2
    "key_or_keys must be a string, mapping, or sequence" rfl

lemma map_keep_of_no_key (l : List (String × Recording)) (n : String)
    (r : Recording) (h : ∀ p ∈ l, p.1 ≠ n) :
    l.map (fun p => if p.1 = n then (n, r) else p) = l := by
  induction l with
  | nil => rfl
  | cons q qs ih =>
    rw [List.map_cons, if_neg (h q (List.mem_cons_self q qs)),
      ih (fun p hp => h p (List.mem_cons_of_mem q hp))]

lemma kvset_self (store : KVStore) (n : String) (r : Recording)
    (hnodup : (store.map Prod.fst).Nodup) (hget : kvget store n = some r) :
    kvset store n r = store := by
  induction store with
  | nil => simp [kvget] at hget
  | cons q qs ih =>
    rw [List.map_cons, List.nodup_cons] at hnodup
    by_cases hq : q.1 = n
    · have hfind : List.find? (fun p => decide (p.1 = n)) (q :: qs) = some q := by
        rw [List.find?_cons_of_pos]
        simp [hq]
      have hqr : q.2 = r := by
        rw [kvget, hfind] at hget
        exact Option.some_injective _ hget
      have hq2 : q = (n, r) := by
        cases q
        simp only at hq hqr
        rw [hq, hqr]
      rw [kvset, if_pos (by rw [hfind]; rfl), List.map_cons, if_pos hq]
      have hrest : ∀ p ∈ qs, p.1 ≠ n := by
        intro p hp hpn
        apply hnodup.1
        have hmem : p.1 ∈ List.map Prod.fst qs := List.mem_map_of_mem Prod.fst hp
        rw [hpn, ← hq] at hmem
        exact hmem
      rw [map_keep_of_no_key qs n r hrest, ← hq2]
    · have hfind : List.find? (fun p => decide (p.1 = n)) (q :: qs)
          = List.find? (fun p => decide (p.1 = n)) qs := by
        rw [List.find?_cons_of_neg]
        simp [hq]
      have hget2 : kvget qs n = some r := by
        rw [kvget, hfind] at hget
        exact hget
      have hsome : (List.find? (fun p => decide (p.1 = n)) qs).isSome := by
        rw [kvget] at hget2
        cases hf : List.find? (fun p => decide (p.1 = n)) qs with
        | none => rw [hf] at hget2; cases hget2
        | some p => rfl
      have ihq := ih hnodup.2 hget2
      rw [kvset, if_pos (by rw [hfind]; exact hsome), List.map_cons, if_neg hq]
      rw [kvset, if_pos hsome] at ihq
      rw [ihq]

/-- C1: when the session exits normally and the newly captured recording
equals the one already stored under the session name, close succeeds
(`save_or_assert` returns the unchanged store) and the snapshot file
content is byte-identical before and after the close. -/
theorem C1_match_success_no_file_mutation (store : KVStore) (name : String)
    (record : Recording) (hnodup : (store.map Prod.fst).Nodup)
    (hget : kvget store name = some record) :
    save_or_assert store name record = .ok store
      ∧ fileAfter (serializeKV store) (save_or_assert store name record)
          = serializeKV store := by
  have h1 : save_or_assert store name record = .ok store := by
    rw [save_or_assert, hget]
    show (if record = record then Except.ok (kvset store name record)
        else Except.error ("Performance record did not match for " ++ name))
      = Except.ok store
    rw [if_pos rfl, kvset_self store name record hnodup hget]
  exact ⟨h1, by rw [h1]; rfl⟩

/-- Witness for C1: a second run with the identical one-operation
recording against an existing snapshot succeeds without mutating it. -/
theorem C1_match_success_no_file_mutation_witness :
    save_or_assert [("TestFoo.test_bar", [("cache|get", KeyOrKeys.single "user:#:profile")])]
        "TestFoo.test_bar" [("cache|get", KeyOrKeys.single "user:#:profile")]
      = .ok [("TestFoo.test_bar", [("cache|get", KeyOrKeys.single "user:#:profile")])]
      ∧ fileAfter
          (serializeKV [("TestFoo.test_bar",
            [("cache|get", KeyOrKeys.single "user:#:profile")])])
          (save_or_assert [("TestFoo.test_bar",
              [("cache|get", KeyOrKeys.single "user:#:profile")])]
            "TestFoo.test_bar" [("cache|get", KeyOrKeys.single "user:#:profile")])
        = serializeKV [("TestFoo.test_bar",
            [("cache|get", KeyOrKeys.single "user:#:profile")])] :=
  C1_match_success_no_file_mutation
    [("TestFoo.test_bar", [("cache|get", KeyOrKeys.single "user:#:profile")])]
    "TestFoo.test_bar" [("cache|get", KeyOrKeys.single "user:#:profile")]
    (by decide) (by decide)

/-- C2: when the stored recording differs from the newly captured one,
close raises an assertion failure whose message names the recording, and
`set_and_save` is never reached: the snapshot file keeps its previous
content. -/
theorem C2_mismatch_assertion_snapshot_untouched (store : KVStore)
    (name : String) (record orig : Recording) (content : String)
    (hget : kvget store name = some orig) (hne : record ≠ orig) :
    save_or_assert store name record
        = .error ("Performance record did not match for " ++ name)
      ∧ fileAfter content (save_or_assert store name record) = content := by
  have h1 : save_or_assert store name record
      = .error ("Performance record did not match for " ++ name) := by
    rw [save_or_assert, hget]
    show (if record = orig then Except.ok (kvset store name record)
        else Except.error ("Performance record did not match for " ++ name))
      = Except.error ("Performance record did not match for " ++ name)
    rw [if_neg hne]
  exact ⟨h1, by rw [h1]; rfl⟩

/-- Witness for C2: a second run with a differing recording raises the
named assertion failure and leaves the file content unchanged. -/
theorem C2_mismatch_assertion_snapshot_untouched_witness :
    save_or_assert [("TestFoo.test_bar", [("cache|get", KeyOrKeys.single "a")])]
        "TestFoo.test_bar" [("cache|set", KeyOrKeys.single "b")]
      = .error ("Performance record did not match for " ++ "TestFoo.test_bar")
      ∧ fileAfter "previous content"
          (save_or_assert [("TestFoo.test_bar", [("cache|get", KeyOrKeys.single "a")])]
            "TestFoo.test_bar" [("cache|set", KeyOrKeys.single "b")])
        = "previous content" :=
  C2_mismatch_assertion_snapshot_untouched
    [("TestFoo.test_bar", [("cache|get", KeyOrKeys.single "a")])]
    "TestFoo.test_bar" [("cache|set", KeyOrKeys.single "b")]
    [("cache|get", KeyOrKeys.single "a")] "previous content"
    (by decide) (by decide)

lemma foldl_setMeth_apply {M : Type} (L : List String) (a : String)
    (f : String → M) (t : Caches M) (a2 n2 : String) :
    (L.foldl (fun s n => setMeth s a n (f n)) t) a2 n2
      = if a2 = a ∧ n2 ∈ L then f n2 else t a2 n2 := by
  induction L generalizing t with
  | nil => simp
  | cons x xs ih =>
    rw [List.foldl_cons, ih]
    by_cases h1 : a2 = a
    · by_cases h2 : n2 ∈ xs
      · simp [h1, h2]
      · by_cases h3 : n2 = x
        · subst h3
          simp [setMeth, h1, h2]
        · simp [setMeth, h1, h2, h3]
    · simp [setMeth, h1]

lemma enter_exit_cancel {M : Type} (wrap : M → M) (t : Caches M)
    (a : String) :
    cacheRecorderExit (cacheRecorderEnter wrap t a).2
        (cacheRecorderEnter wrap t a).1 = t := by
  funext a2 n2
  show (cache_methods.foldl
      (fun s n => setMeth s a n (t a n))
      (cache_methods.foldl (fun s n => setMeth s a n (wrap (t a n))) t)) a2 n2
    = t a2 n2
  rw [foldl_setMeth_apply, foldl_setMeth_apply]
  by_cases h : a2 = a ∧ n2 ∈ cache_methods
  · rw [if_pos h, h.1]
  · rw [if_neg h, if_neg h]

lemma allCacheEnter_names {M : Type} (wrap : M → M) (t : Caches M)
    (names : List String) :
    ((allCacheEnter wrap t names).1.map (fun r => r.cache_name)) = names := by
  induction names generalizing t with
  | nil => rfl
  | cons a rest ih =>
    show (allCacheEnter wrap t (a :: rest)).1.map (fun r => r.cache_name)
      = a :: rest
    rw [allCacheEnter]
    simp only [List.map_cons, ih]
    rfl

lemma allCache_roundtrip {M : Type} (wrap : M → M) (t : Caches M)
    (names : List String) (excInfo : Option String) :
    allCacheExit (allCacheEnter wrap t names).1 excInfo
        (allCacheEnter wrap t names).2 = t := by
  induction names generalizing t with
  | nil => rfl
  | cons a rest ih =>
    rw [allCacheEnter]
    show allCacheExit
        ((cacheRecorderEnter wrap t a).1
          :: (allCacheEnter wrap (cacheRecorderEnter wrap t a).2 rest).1)
        excInfo
        (allCacheEnter wrap (cacheRecorderEnter wrap t a).2 rest).2 = t
    rw [allCacheExit, List.reverse_cons, List.foldl_append, List.foldl_cons,
      List.foldl_nil]
    have hrec := ih (cacheRecorderEnter wrap t a).2
    rw [allCacheExit] at hrec
    rw [hrec]
    exact enter_exit_cancel wrap t a

/-- C4: acquire-then-release of the multi-backend recorder is a round trip
on the backend method tables. Release processes the interceptors in exact
reverse order of acquisition and ignores the exception info, so whatever
the exit reason, every one of the nine operation methods of every
configured backend is afterwards the original implementation recorded at
acquire. -/
theorem C4_acquire_release_roundtrip {M : Type} (wrap : M → M)
    (t : Caches M) (names : List String) (excInfo : Option String) :
    allCacheExit (allCacheEnter wrap t names).1 excInfo
        (allCacheEnter wrap t names).2 = t
      ∧ ((allCacheEnter wrap t names).1.reverse.map (fun r => r.cache_name))
          = names.reverse := by
  refine ⟨allCache_roundtrip wrap t names excInfo, ?_⟩
  rw [List.map_reverse, allCacheEnter_names]

/-- C8 counterexample: the deduplication state only remembers the most
recent derived name, so with the derived-name sequence A, B, A the third
session is named `A` again instead of `A.2`, and two sessions of the run
share a name. -/
theorem C8_counterexample :
    (recordRun ⟨none, 0⟩
        ["TestFoo.test_bar", "TestFoo.test_other", "TestFoo.test_bar"]).1
      = ["TestFoo.test_bar", "TestFoo.test_other", "TestFoo.test_bar"]
    ∧ ¬ (recordRun ⟨none, 0⟩
        ["TestFoo.test_bar", "TestFoo.test_other", "TestFoo.test_bar"]).1.Nodup
    ∧ (recordRun ⟨none, 0⟩
        ["TestFoo.test_bar", "TestFoo.test_other", "TestFoo.test_bar"]).1.getLast?
      ≠ some "TestFoo.test_bar.2" := by
  refine ⟨by decide, by decide, by decide⟩

lemma recordRun_same_name (d : String) :
    ∀ (n c : Nat), (recordRun ⟨some d, c⟩ (List.replicate n d)).1
      = (List.range' (c + 1) n).map (fun i => d ++ "." ++ toString i)
  | 0, _ => rfl
  | n + 1, c => by
    have hstep : recordStep ⟨some d, c⟩ d
        = (d ++ "." ++ toString (c + 1), ⟨some d, c + 1⟩) := by
      rw [recordStep, if_pos rfl]
    rw [List.replicate_succ, recordRun, hstep, List.range'_succ, List.map_cons]
    dsimp only
    rw [recordRun_same_name d n (c + 1)]

/-- C8 amended: consecutive sessions deriving the same name are suffixed
with a counter starting at 2: an uninterrupted run of n+1 sessions with
derived name d, started when d is not the remembered name, produces the
session names d, d.2, ..., d.(n+1). -/
theorem C8_consecutive_same_name_suffixed (d : String) (n : Nat)
    (st : RecordCurrent) (h : st.record_name ≠ some d) :
    (recordRun st (List.replicate (n + 1) d)).1
      = d :: (List.range' 2 n).map (fun i => d ++ "." ++ toString i) := by
  have hstep : recordStep st d = (d, ⟨some d, 1⟩) := by
    rw [recordStep, if_neg h]
  rw [List.replicate_succ, recordRun, hstep]
  dsimp only
  rw [recordRun_same_name d n 1]

/-- Witness for the amended C8: three sessions in a row deriving the same
name are named `TestFoo.test_bar`, `TestFoo.test_bar.2`,
`TestFoo.test_bar.3`. -/
theorem C8_consecutive_same_name_suffixed_witness :
    (recordRun ⟨none, 0⟩ (List.replicate 3 "TestFoo.test_bar")).1
      = "TestFoo.test_bar"
        :: (List.range' 2 2).map
            (fun i => "TestFoo.test_bar" ++ "." ++ toString i) :=
  C8_consecutive_same_name_suffixed "TestFoo.test_bar" 2 ⟨none, 0⟩ (by decide)

/-- C6 counterexample: the normalizer is not idempotent. For the key
`x1` followed by 32 `a` characters, the first pass only replaces the
digit `1` with `#`, which creates a fresh token boundary in front of a
32-character lowercase-hex run; a second pass then replaces that run as a
long hash, so normalising twice changes the result again. -/
theorem C6_counterexample :
    clean_key (clean_key "x1aaaaaaaaaaaaaaaaaaaaaaaaaaaaaaaa")
      ≠ clean_key "x1aaaaaaaaaaaaaaaaaaaaaaaaaaaaaaaa" := by
  decide

/-- C6 amended: the normalizer is idempotent exactly on the keys whose
normalised form no rule rewrites further; for every key k such that each
substitution rule leaves normalize(k) unchanged, a second application of
the normalizer changes nothing. In general a substitution can expose a
fresh token boundary and a second pass rewrites further. -/
theorem C6_idempotent_on_stable_keys (k : String)
    (h : ∀ m ∈ VARIABLE_RES, subst m (clean_key k).data = (clean_key k).data) :
    clean_key (clean_key k) = clean_key k := by
  have h1 := h (lookbehindHexMatch sessCachePat) (by simp [VARIABLE_RES])
  have h2 := h (lookbehindHexMatch sessCachedDbPat) (by simp [VARIABLE_RES])
  have h3 := h hexHashMatch (by simp [VARIABLE_RES])
  have h4 := h uuidMatch (by simp [VARIABLE_RES])
  have h5 := h digitsMatch (by simp [VARIABLE_RES])
  show (⟨VARIABLE_RES.foldl (fun s m => subst m s) (clean_key k).data⟩ : String)
    = clean_key k
  rw [show VARIABLE_RES
      = [lookbehindHexMatch sessCachePat, lookbehindHexMatch sessCachedDbPat,
         hexHashMatch, uuidMatch, digitsMatch] from rfl]
  rw [List.foldl_cons, h1, List.foldl_cons, h2, List.foldl_cons, h3,
    List.foldl_cons, h4, List.foldl_cons, h5, List.foldl_nil]

/-- Witness for the amended C6: the normalised form of
`user:12345:profile` is stable under every rule, so normalising it twice
equals normalising it once. -/
theorem C6_idempotent_on_stable_keys_witness :
    clean_key (clean_key "user:12345:profile")
      = clean_key "user:12345:profile" :=
  C6_idempotent_on_stable_keys "user:12345:profile" (by
    intro m hm
    simp only [VARIABLE_RES, List.mem_cons, List.not_mem_nil, or_false] at hm
    rcases hm with h | h | h | h | h <;> subst h <;> decide)

/-- Original method used in the transparency counterexample for C3: it
returns `None` and bumps a call counter in the backend state, so a missed
delegation shows up in both the result and the state. -/
def countingOrig : List PyVal → Nat → PyVal × Nat :=
  fun _ st => (PyVal.vnone, st + 1)

/-- C3 counterexample: for the valid shape "sequence" with a non-string
element, the wrapper raises `TypeError` while normalising the keys, the
original method is never invoked (the call counter stays 0 and no event
is logged), and no return value is produced, although the original method
itself accepts the call. -/
theorem C3_counterexample :
    inner "default" "get_many" countingOrig false
        [PyVal.vlist [PyVal.vint 1]] 0 []
      = (.error .typeError, 0, [])
    ∧ countingOrig [PyVal.vlist [PyVal.vint 1]] 0 = (PyVal.vnone, 1) :=
  ⟨rfl, rfl⟩

/-- Valid key shapes for which interception is transparent: a string, or
a mapping/sequence all of whose iterated keys are strings. -/
def validKeyArg (v : PyVal) : Bool :=
  isStr v || (isMappingOrSequence v && (iterElems v).all isStr)

/-- C3 amended: for each of the nine instrumented operations and every
external invocation whose first positional argument is a string, or a
mapping/sequence all of whose iterated keys are strings, the instrumented
method delegates to the original method with the original arguments,
returns exactly the original result, applies exactly the original state
effect, and appends one operation event to the log. -/
theorem C3_transparent_delegation {σ : Type} (cache_name fname : String)
    (orig : List PyVal → σ → PyVal × σ) (a0 : PyVal) (rest : List PyVal)
    (st : σ) (log : List CacheOp)
    (_hf : fname ∈ cache_methods) (hv : validKeyArg a0 = true) :
    ∃ op : CacheOp,
      inner cache_name fname orig false (a0 :: rest) st log
        = (.ok (orig (a0 :: rest) st).1, (orig (a0 :: rest) st).2,
           log ++ [op]) := by
  have hok : ∃ op, CacheOp.init cache_name fname a0 = .ok op := by
    rw [validKeyArg, Bool.or_eq_true] at hv
    cases hv with
    | inl hs =>
      cases a0 with
      | vstr s => exact ⟨_, init_vstr cache_name fname s⟩
      | vlist l => simp [isStr] at hs
      | vdict l => simp [isStr] at hs
      | vint n => simp [isStr] at hs
      | vnone => simp [isStr] at hs
    | inr hms =>
      rw [Bool.and_eq_true] at hms
      obtain ⟨ks, hks⟩ := cleanAll_ok_of_all_str hms.2
      cases a0 with
      | vstr s => exact ⟨_, init_vstr cache_name fname s⟩
      | vlist l =>
        refine ⟨⟨cache_name, fname, .many (pysorted ks)⟩, ?_⟩
        rw [init_vlist, show cleanAll l = .ok ks from hks]
      | vdict l =>
        refine ⟨⟨cache_name, fname, .many (pysorted ks)⟩, ?_⟩
        rw [init_vdict, show cleanAll (l.map Prod.fst) = .ok ks from hks]
      | vint n => simp [isMappingOrSequence] at hms
      | vnone => simp [isMappingOrSequence] at hms
  obtain ⟨op, hop⟩ := hok
  refine ⟨op, ?_⟩
  rw [inner]
  simp only [Bool.false_eq_true, ite_false, hop]

/-- Witness for the amended C3: a bulk read of string keys delegates to
the original method, returns its result, applies its state effect, and
logs one event. -/
theorem C3_transparent_delegation_witness :
    ∃ op : CacheOp,
      inner "default" "get_many" countingOrig false
          [PyVal.vlist [PyVal.vstr "b", PyVal.vstr "a"]] 0 []
        = (.ok (countingOrig [PyVal.vlist [PyVal.vstr "b", PyVal.vstr "a"]] 0).1,
           (countingOrig [PyVal.vlist [PyVal.vstr "b", PyVal.vstr "a"]] 0).2,
           [] ++ [op]) :=
  C3_transparent_delegation "default" "get_many" countingOrig
    (PyVal.vlist [PyVal.vstr "b", PyVal.vstr "a"]) [] 0 []
    (by decide) (by decide)

end DjangoPerfRec
